import Mathlib

/-!
Shallow embedding of `PathPlanning/FrenetOptimalTrajectory/frenet_optimal_trajectory.py`.

Real-valued arithmetic of the source is modelled over `ℚ` (the solves and grid
arithmetic are exact); the transcendental library functions `math.atan2` and
`math.sqrt` are abstract parameters of the frame converter, since every property
proved about it holds for any interpretation of those two functions.
-/

/-- Embeds `np.arange(start, stop, step)`: the half-open grid
`start, start+step, ...` of length `⌈(stop-start)/step⌉` (clamped at 0). -/
def arange (start stop step : ℚ) : List ℚ :=
  (List.range (⌈(stop - start) / step⌉).toNat).map (fun i : ℕ => start + (i : ℚ) * step)

/-- Determinant of a 3×3 matrix given row-wise. -/
def det3 (a11 a12 a13 a21 a22 a23 a31 a32 a33 : ℚ) : ℚ :=
  a11 * (a22 * a33 - a23 * a32) - a12 * (a21 * a33 - a23 * a31)
    + a13 * (a21 * a32 - a22 * a31)

/-- Embeds `np.linalg.solve` on a 3×3 system, by Cramer's rule.
On a singular system the source raises `LinAlgError`; the guarded variant
with that branch is in the `init?` constructors below. -/
def solve3 (a11 a12 a13 a21 a22 a23 a31 a32 a33 b1 b2 b3 : ℚ) : ℚ × ℚ × ℚ :=
  (det3 b1 a12 a13 b2 a22 a23 b3 a32 a33 / det3 a11 a12 a13 a21 a22 a23 a31 a32 a33,
   det3 a11 b1 a13 a21 b2 a23 a31 b3 a33 / det3 a11 a12 a13 a21 a22 a23 a31 a32 a33,
   det3 a11 a12 b1 a21 a22 b2 a31 a32 b3 / det3 a11 a12 a13 a21 a22 a23 a31 a32 a33)

/-- Determinant of a 2×2 matrix given row-wise. -/
def det2 (a11 a12 a21 a22 : ℚ) : ℚ := a11 * a22 - a12 * a21

/-- Embeds `np.linalg.solve` on a 2×2 system, by Cramer's rule. -/
def solve2 (a11 a12 a21 a22 b1 b2 : ℚ) : ℚ × ℚ :=
  (det2 b1 a12 b2 a22 / det2 a11 a12 a21 a22,
   det2 a11 b1 a21 b2 / det2 a11 a12 a21 a22)

/-- Embeds the class `quinic_polynomial` (source's spelling): the stored
boundary conditions and the six coefficients. -/
structure quinic_polynomial where
  xs : ℚ
  vxs : ℚ
  axs : ℚ
  xe : ℚ
  vxe : ℚ
  axe : ℚ
  a0 : ℚ
  a1 : ℚ
  a2 : ℚ
  a3 : ℚ
  a4 : ℚ
  a5 : ℚ
deriving Inhabited, DecidableEq

/-- Embeds `quinic_polynomial.__init__`: `a0 = xs`, `a1 = vxs`, `a2 = axs/2`,
and `(a3, a4, a5)` from the 3×3 system
`[[T^3,T^4,T^5],[3T^2,4T^3,5T^4],[6T,12T^2,20T^3]]`. -/
def quinic_polynomial.init (xs vxs axs xe vxe axe T : ℚ) : quinic_polynomial :=
  let a0 := xs
  let a1 := vxs
  let a2 := axs / 2.0
  let sol := solve3 (T^3) (T^4) (T^5)
      (3 * T^2) (4 * T^3) (5 * T^4)
      (6 * T) (12 * T^2) (20 * T^3)
      (xe - a0 - a1 * T - a2 * T^2)
      (vxe - a1 - 2 * a2 * T)
      (axe - 2 * a2)
  { xs := xs, vxs := vxs, axs := axs, xe := xe, vxe := vxe, axe := axe,
    a0 := a0, a1 := a1, a2 := a2, a3 := sol.1, a4 := sol.2.1, a5 := sol.2.2 }

/-- Embeds `quinic_polynomial.__init__` together with the `np.linalg.solve`
error branch: `none` models the `LinAlgError` raised on a singular system. -/
def quinic_polynomial.init? (xs vxs axs xe vxe axe T : ℚ) : Option quinic_polynomial :=
  if det3 (T^3) (T^4) (T^5)
      (3 * T^2) (4 * T^3) (5 * T^4)
      (6 * T) (12 * T^2) (20 * T^3) = 0 then none
  else some (quinic_polynomial.init xs vxs axs xe vxe axe T)

/-- Embeds `quinic_polynomial.calc_point`. -/
def quinic_polynomial.calc_point (p : quinic_polynomial) (t : ℚ) : ℚ :=
  p.a0 + p.a1 * t + p.a2 * t^2 + p.a3 * t^3 + p.a4 * t^4 + p.a5 * t^5

/-- Embeds `quinic_polynomial.calc_first_derivative`. -/
def quinic_polynomial.calc_first_derivative (p : quinic_polynomial) (t : ℚ) : ℚ :=
  p.a1 + 2 * p.a2 * t + 3 * p.a3 * t^2 + 4 * p.a4 * t^3 + 5 * p.a5 * t^4

/-- Embeds `quinic_polynomial.calc_second_derivative`. -/
def quinic_polynomial.calc_second_derivative (p : quinic_polynomial) (t : ℚ) : ℚ :=
  2 * p.a2 + 6 * p.a3 * t + 12 * p.a4 * t^2 + 20 * p.a5 * t^3

/-- Embeds the class `quartic_polynomial`. -/
structure quartic_polynomial where
  xs : ℚ
  vxs : ℚ
  axs : ℚ
  vxe : ℚ
  axe : ℚ
  a0 : ℚ
  a1 : ℚ
  a2 : ℚ
  a3 : ℚ
  a4 : ℚ
deriving Inhabited, DecidableEq

/-- Embeds `quartic_polynomial.__init__`: `a0 = xs`, `a1 = vxs`, `a2 = axs/2`,
and `(a3, a4)` from the 2×2 system `[[3T^2,4T^3],[6T,12T^2]]`. -/
def quartic_polynomial.init (xs vxs axs vxe axe T : ℚ) : quartic_polynomial :=
  let a0 := xs
  let a1 := vxs
  let a2 := axs / 2.0
  let sol := solve2 (3 * T^2) (4 * T^3) (6 * T) (12 * T^2)
      (vxe - a1 - 2 * a2 * T)
      (axe - 2 * a2)
  { xs := xs, vxs := vxs, axs := axs, vxe := vxe, axe := axe,
    a0 := a0, a1 := a1, a2 := a2, a3 := sol.1, a4 := sol.2 }

/-- Embeds `quartic_polynomial.__init__` together with the `np.linalg.solve`
error branch: `none` models the `LinAlgError` raised on a singular system. -/
def quartic_polynomial.init? (xs vxs axs vxe axe T : ℚ) : Option quartic_polynomial :=
  if det2 (3 * T^2) (4 * T^3) (6 * T) (12 * T^2) = 0 then none
  else some (quartic_polynomial.init xs vxs axs vxe axe T)

/-- Embeds `quartic_polynomial.calc_point`. -/
def quartic_polynomial.calc_point (p : quartic_polynomial) (t : ℚ) : ℚ :=
  p.a0 + p.a1 * t + p.a2 * t^2 + p.a3 * t^3 + p.a4 * t^4

/-- Embeds `quartic_polynomial.calc_first_derivative`. -/
def quartic_polynomial.calc_first_derivative (p : quartic_polynomial) (t : ℚ) : ℚ :=
  p.a1 + 2 * p.a2 * t + 3 * p.a3 * t^2 + 4 * p.a4 * t^3

/-- Embeds `quartic_polynomial.calc_second_derivative`. -/
def quartic_polynomial.calc_second_derivative (p : quartic_polynomial) (t : ℚ) : ℚ :=
  2 * p.a2 + 6 * p.a3 * t + 12 * p.a4 * t^2

/-- Embeds the class `Frenet_path`; the constructor initialises all twelve
arrays to `[]`, which is the derived `default`. -/
structure Frenet_path where
  t : List ℚ := []
  d : List ℚ := []
  d_d : List ℚ := []
  d_dd : List ℚ := []
  s : List ℚ := []
  s_d : List ℚ := []
  s_dd : List ℚ := []
  x : List ℚ := []
  y : List ℚ := []
  yaw : List ℚ := []
  ds : List ℚ := []
  c : List ℚ := []
deriving Inhabited, DecidableEq

/-! Module-level constants of the source. -/

def max_speed : ℚ := 50.0 / 3.6

def max_accel : ℚ := 2.0

def max_curvature : ℚ := 1.0

def maxd : ℚ := 5.0

def dd : ℚ := 1.0

def dt : ℚ := 1.0

def T : ℚ := 10.0

def target_speed : ℚ := 30.0 / 3.6

def dv : ℚ := 5.0 / 3.6

def nv : ℚ := 2

/-- Embeds `calc_frenet_paths`: for each lateral offset `di` and duration `Ti`
of the half-open grids, solve one lateral quintic, sample it on
`np.arange(0, Ti, 0.1)`, then for each target speed `tv` deep-copy the partial
path and fill the longitudinal arrays from a quartic solved over the same `Ti`.
Every grid duration is positive, so the solver's singular branch (its 3×3
determinant is `2·Ti^9` and the 2×2 one `12·Ti^4`) cannot fire here, and the
total constructors coincide with the guarded ones on this domain. -/
def calc_frenet_paths (c_speed c_d : ℚ) : List Frenet_path :=
  (arange (-maxd) maxd dd).flatMap (fun di =>
    (arange dt T dt).flatMap (fun Ti =>
      let lat_qp := quinic_polynomial.init c_d 0.0 0.0 di 0.0 0.0 Ti
      let ts := arange 0.0 Ti 0.1
      let fp : Frenet_path :=
        { t := ts,
          d := ts.map lat_qp.calc_point,
          d_d := ts.map lat_qp.calc_first_derivative,
          d_dd := ts.map lat_qp.calc_second_derivative }
      (arange (target_speed - dv * nv) (target_speed + dv * nv) dv).map (fun tv =>
        let lon_qp := quartic_polynomial.init 0.0 c_speed 0.0 tv 0.0 Ti
        { fp with
          s := fp.t.map lon_qp.calc_point,
          s_d := fp.t.map lon_qp.calc_first_derivative,
          s_dd := fp.t.map lon_qp.calc_second_derivative })))

/-- The two Python exceptions the converter can raise: `IndexError` from
`yaw[-1]`/`ds[-1]` on an empty list, and `ZeroDivisionError` from the
curvature step's division by a zero step length `ds[i]`. -/
inductive PyError where
  | indexError
  | zeroDivisionError
deriving DecidableEq, Inhabited

/-- Embeds the body of `calc_global_paths` for a single path: `x := s`,
`y := d`; one `yaw`/`ds` entry per consecutive pair via `atan2`/`sqrt`;
then `yaw.append(yaw[-1])`, `ds.append(ds[-1])` — Python's `[-1]` on an
empty list raises `IndexError`; finally one curvature entry
`(yaw[i+1] - yaw[i]) / ds[i]` per consecutive `yaw` pair, raising
`ZeroDivisionError` if any divisor `ds[i]` is zero (the source does not
guard this division).  The computed entries are appended to the path's
existing `yaw`/`ds`/`c` arrays exactly as the source's `append` does. -/
def calc_global_path (atan2 : ℚ → ℚ → ℚ) (sqrt : ℚ → ℚ) (fp : Frenet_path) :
    Except PyError Frenet_path :=
  let x := fp.s
  let y := fp.d
  let yaw1 := fp.yaw ++ (List.range (x.length - 1)).map (fun i =>
    atan2 (y.getD (i + 1) 0 - y.getD i 0) (x.getD (i + 1) 0 - x.getD i 0))
  let ds1 := fp.ds ++ (List.range (x.length - 1)).map (fun i =>
    sqrt ((x.getD (i + 1) 0 - x.getD i 0)^2 + (y.getD (i + 1) 0 - y.getD i 0)^2))
  match yaw1.getLast?, ds1.getLast? with
  | some ylast, some dlast =>
      let yaw := yaw1 ++ [ylast]
      let ds := ds1 ++ [dlast]
      if (List.range (yaw.length - 1)).any (fun i => decide (ds.getD i 0 = 0)) then
        Except.error PyError.zeroDivisionError
      else
        let c := fp.c ++ (List.range (yaw.length - 1)).map (fun i =>
          (yaw.getD (i + 1) 0 - yaw.getD i 0) / ds.getD i 0)
        Except.ok { fp with x := x, y := y, yaw := yaw, ds := ds, c := c }
  | _, _ => Except.error PyError.indexError

/-- Embeds `calc_global_paths`: the per-path conversion over the whole list;
a raise on any path aborts the whole call with that exception. -/
def calc_global_paths (atan2 : ℚ → ℚ → ℚ) (sqrt : ℚ → ℚ)
    (fplist : List Frenet_path) : Except PyError (List Frenet_path) :=
  fplist.mapM (calc_global_path atan2 sqrt)

/-- Embeds `check_paths`, generalized over the three module-level limits
(the source reads them as globals; `check_paths` below instantiates them).
`okind` collects the indices that survive the `any`-chain, and the result
re-indexes the input by `okind`. -/
def check_paths_with (ms ma mc : ℚ) (fplist : List Frenet_path) : List Frenet_path :=
  let okind := (List.range fplist.length).filter (fun i =>
    let fp := fplist.getD i default
    !(fp.s_d.any (fun v => decide (v > ms))) &&
    !(fp.s_dd.any (fun a => decide (|a| > ma))) &&
    !(fp.c.any (fun cc => decide (|cc| > mc))))
  okind.map (fun i => fplist.getD i default)

/-- Embeds `check_paths` at the source's global limits. -/
def check_paths (fplist : List Frenet_path) : List Frenet_path :=
  check_paths_with max_speed max_accel max_curvature fplist

/-- The keep-condition of `check_paths` as a single boolean predicate:
no longitudinal speed above `ms` (one-sided, as in the source), no
`|acceleration|` above `ma`, no `|curvature|` above `mc`. -/
def code_feasible (ms ma mc : ℚ) (fp : Frenet_path) : Bool :=
  fp.s_d.all (fun v => decide (v ≤ ms)) &&
  fp.s_dd.all (fun a => decide (|a| ≤ ma)) &&
  fp.c.all (fun cc => decide (|cc| ≤ mc))

/-- Modelled from the spec's words, for refinement comparison with
`check_paths`: the per-path feasibility predicate as the claim states it,
with an absolute value on all three checks including the speed check. -/
def claim_feasible (fp : Frenet_path) : Bool :=
  fp.s_d.all (fun v => decide (|v| ≤ max_speed)) &&
  fp.s_dd.all (fun a => decide (|a| ≤ max_accel)) &&
  fp.c.all (fun cc => decide (|cc| ≤ max_curvature))

/-- Observable outcome of `frenet_optimal_planning`: the list of paths handed
to the plotting loop, and the function's return value — the source has no
`return` statement, so a completed call returns Python's `None`, modelled as
`ret = none`. -/
structure PlanReturn where
  plotted : List Frenet_path
  ret : Option (List Frenet_path)
deriving DecidableEq

/-- Embeds `frenet_optimal_planning`: generate, convert, filter, plot each
surviving path, and fall off the end (returning `None`).  An exception
raised by the conversion escapes the call as `Except.error`. -/
def frenet_optimal_planning (atan2 : ℚ → ℚ → ℚ) (sqrt : ℚ → ℚ)
    (c_speed c_d : ℚ) : Except PyError PlanReturn :=
  match calc_global_paths atan2 sqrt (calc_frenet_paths c_speed c_d) with
  | Except.error e => Except.error e
  | Except.ok fplist2 => Except.ok { plotted := check_paths fplist2, ret := none }

/-- The per-pair heading entries built by the converter's first loop
(one per consecutive pair of points of `x = s`, `y = d`). -/
def yaw_steps (atan2 : ℚ → ℚ → ℚ) (fp : Frenet_path) : List ℚ :=
  (List.range (fp.s.length - 1)).map (fun i =>
    atan2 (fp.d.getD (i + 1) 0 - fp.d.getD i 0) (fp.s.getD (i + 1) 0 - fp.s.getD i 0))

/-- The per-pair step-length entries built by the converter's first loop. -/
def ds_steps (sqrt : ℚ → ℚ) (fp : Frenet_path) : List ℚ :=
  (List.range (fp.s.length - 1)).map (fun i =>
    sqrt ((fp.s.getD (i + 1) 0 - fp.s.getD i 0)^2 + (fp.d.getD (i + 1) 0 - fp.d.getD i 0)^2))

/-- The curvature entries built by the converter's second loop from the
full-length `yaw` and `ds` arrays. -/
def curvature_of (yaw ds : List ℚ) : List ℚ :=
  (List.range (yaw.length - 1)).map (fun i =>
    (yaw.getD (i + 1) 0 - yaw.getD i 0) / ds.getD i 0)

/-! Helper lemmas. -/

/-- Reading every index of a list back with `getD` reproduces the list. -/
lemma map_getD_range {α : Type} (l : List α) (dflt : α) :
    (List.range l.length).map (fun i => l.getD i dflt) = l := by
  induction l with
  | nil => rfl
  | cons a tl ih =>
    rw [List.length_cons, List.range_succ_eq_map, List.map_cons, List.map_map]
    have h2 : ((fun i => (a :: tl).getD i dflt) ∘ Nat.succ) = (fun i => tl.getD i dflt) := by
      funext i
      simp only [Function.comp_apply, Nat.succ_eq_add_one, List.getD_cons_succ]
    rw [List.getD_cons_zero, h2, ih]

/-- A failed one-sided `any`-check is an `all`-check with `≤`. -/
lemma not_any_gt (xs : List ℚ) (m : ℚ) :
    (!(xs.any fun v => decide (v > m))) = xs.all (fun v => decide (v ≤ m)) := by
  rw [Bool.eq_iff_iff]
  simp [not_lt]

/-- A failed absolute-value `any`-check is an `all`-check with `≤`. -/
lemma not_any_abs_gt (xs : List ℚ) (m : ℚ) :
    (!(xs.any fun v => decide (|v| > m))) = xs.all (fun v => decide (|v| ≤ m)) := by
  rw [Bool.eq_iff_iff]
  simp [not_lt]

/-- The index-based survivor collection of `check_paths` is a `filter` by the
per-path predicate `code_feasible`. -/
lemma check_paths_with_eq_filter (ms ma mc : ℚ) (l : List Frenet_path) :
    check_paths_with ms ma mc l = l.filter (code_feasible ms ma mc) := by
  unfold check_paths_with
  have hpred : (fun i =>
      let fp := l.getD i default
      !(fp.s_d.any (fun v => decide (v > ms))) &&
      !(fp.s_dd.any (fun a => decide (|a| > ma))) &&
      !(fp.c.any (fun cc => decide (|cc| > mc)))) =
      ((code_feasible ms ma mc) ∘ (fun i => l.getD i default)) := by
    funext i
    simp only [Function.comp, code_feasible]
    rw [not_any_gt, not_any_abs_gt, not_any_abs_gt]
  rw [hpred, ← List.filter_map]
  rw [map_getD_range]

/-- `check_paths` in filter form, at the source's global limits. -/
lemma check_paths_eq_filter (l : List Frenet_path) :
    check_paths l = l.filter (code_feasible max_speed max_accel max_curvature) := by
  rw [check_paths, check_paths_with_eq_filter]

/-- Claim C1 (amended): `check_paths` returns exactly the input paths for
which every sample passes `s'[i] ≤ max_speed` (one-sided, no absolute value),
`|s''[i]| ≤ max_accel` and `|c[i]| ≤ max_curvature`; one failing sample
rejects the whole path, and survivors keep their input order — stated as a
single `filter` equation. -/
theorem check_paths_exact_filter : ∀ fplist : List Frenet_path,
    check_paths fplist = fplist.filter (code_feasible max_speed max_accel max_curvature) :=
  check_paths_eq_filter

/-- Claim C1 counterexample: a path whose only longitudinal-speed sample is
−20 violates `|s'| ≤ max_speed` (so the claim's subset omits it), yet
`check_paths` keeps it, because the source's speed check has no absolute
value. -/
theorem check_paths_abs_speed_counterexample :
    check_paths [{ s_d := [-20] }] ≠
      List.filter claim_feasible [{ s_d := [-20] }] := by
  rw [check_paths_eq_filter]
  have h1 : code_feasible max_speed max_accel max_curvature { s_d := [-20] } = true := by
    simp only [code_feasible, List.all_cons, List.all_nil, Bool.and_true,
      decide_eq_true_eq, max_speed]
    norm_num
  have h2 : claim_feasible { s_d := [-20] } = false := by
    simp [claim_feasible, max_speed]
    norm_num
  simp [List.filter, h1, h2]

/-- Claim C9: `check_paths` never modifies any path: its output is a
subsequence of its input, so each returned element is one of the input
paths with every field unchanged. -/
theorem check_paths_output_sublist : ∀ fplist : List Frenet_path,
    (check_paths fplist).Sublist fplist := by
  intro l
  rw [check_paths_eq_filter]
  exact List.filter_sublist l

/-- Claim C7: for a fixed input collection, pointwise-larger limits make the
set returned by `check_paths_with` a supersequence (so enlarging any limit
never shrinks the feasible set, and shrinking any limit never grows it). -/
theorem check_paths_limits_monotone :
    ∀ ms ma mc ms' ma' mc' : ℚ, ∀ fplist : List Frenet_path,
      ms ≤ ms' → ma ≤ ma' → mc ≤ mc' →
      (check_paths_with ms ma mc fplist).Sublist (check_paths_with ms' ma' mc' fplist) := by
  intro ms ma mc ms' ma' mc' l hs ha hc
  rw [check_paths_with_eq_filter, check_paths_with_eq_filter]
  refine List.monotone_filter_right l ?_
  intro fp h
  simp only [code_feasible, Bool.and_eq_true, List.all_eq_true, decide_eq_true_eq] at h ⊢
  obtain ⟨⟨h1, h2⟩, h3⟩ := h
  exact ⟨⟨fun v hv => le_trans (h1 v hv) hs,
          fun a hax => le_trans (h2 a hax) ha⟩,
         fun cc hcc => le_trans (h3 cc hcc) hc⟩

/-- Witness for claim C7 at concrete limits and a concrete one-path input. -/
theorem check_paths_limits_monotone_witness :
    (1:ℚ) ≤ 2 ∧ (1:ℚ) ≤ 1 ∧ (0:ℚ) ≤ 5 ∧
    (check_paths_with 1 1 0 [{ s_d := [-20] }]).Sublist
      (check_paths_with 2 1 5 [{ s_d := [-20] }]) :=
  ⟨by norm_num, by norm_num, by norm_num,
   check_paths_limits_monotone 1 1 0 2 1 5 [{ s_d := [-20] }]
     (by norm_num) (by norm_num) (by norm_num)⟩

/-- Cramer's rule is correct: on a nonsingular 3×3 system, `solve3` returns
a solution of the three equations. -/
lemma solve3_spec (a11 a12 a13 a21 a22 a23 a31 a32 a33 b1 b2 b3 : ℚ)
    (hD : det3 a11 a12 a13 a21 a22 a23 a31 a32 a33 ≠ 0) :
    a11 * (solve3 a11 a12 a13 a21 a22 a23 a31 a32 a33 b1 b2 b3).1
      + a12 * (solve3 a11 a12 a13 a21 a22 a23 a31 a32 a33 b1 b2 b3).2.1
      + a13 * (solve3 a11 a12 a13 a21 a22 a23 a31 a32 a33 b1 b2 b3).2.2 = b1 ∧
    a21 * (solve3 a11 a12 a13 a21 a22 a23 a31 a32 a33 b1 b2 b3).1
      + a22 * (solve3 a11 a12 a13 a21 a22 a23 a31 a32 a33 b1 b2 b3).2.1
      + a23 * (solve3 a11 a12 a13 a21 a22 a23 a31 a32 a33 b1 b2 b3).2.2 = b2 ∧
    a31 * (solve3 a11 a12 a13 a21 a22 a23 a31 a32 a33 b1 b2 b3).1
      + a32 * (solve3 a11 a12 a13 a21 a22 a23 a31 a32 a33 b1 b2 b3).2.1
      + a33 * (solve3 a11 a12 a13 a21 a22 a23 a31 a32 a33 b1 b2 b3).2.2 = b3 := by
  unfold solve3
  refine ⟨?_, ?_, ?_⟩ <;>
    · field_simp
      unfold det3 at hD ⊢
      ring

/-- Cramer's rule is correct: on a nonsingular 2×2 system, `solve2` returns
a solution of the two equations. -/
lemma solve2_spec (a11 a12 a21 a22 b1 b2 : ℚ)
    (hD : det2 a11 a12 a21 a22 ≠ 0) :
    a11 * (solve2 a11 a12 a21 a22 b1 b2).1 + a12 * (solve2 a11 a12 a21 a22 b1 b2).2 = b1 ∧
    a21 * (solve2 a11 a12 a21 a22 b1 b2).1 + a22 * (solve2 a11 a12 a21 a22 b1 b2).2 = b2 := by
  unfold solve2
  refine ⟨?_, ?_⟩ <;>
    · field_simp
      unfold det2 at hD ⊢
      ring

/-- The 3×3 system matrix of the quintic solve has determinant `2·T^9`. -/
lemma quintic_det (Tv : ℚ) :
    det3 (Tv^3) (Tv^4) (Tv^5) (3 * Tv^2) (4 * Tv^3) (5 * Tv^4)
      (6 * Tv) (12 * Tv^2) (20 * Tv^3) = 2 * Tv^9 := by
  unfold det3; ring

/-- The 2×2 system matrix of the quartic solve has determinant `12·T^4`. -/
lemma quartic_det (Tv : ℚ) :
    det2 (3 * Tv^2) (4 * Tv^3) (6 * Tv) (12 * Tv^2) = 12 * Tv^4 := by
  unfold det2; ring

/-- Claim C3: for every boundary condition and duration `T > 0`, the solved
quintic reproduces position, velocity and acceleration at `t = 0` and at
`t = T`, and the solved quartic reproduces position, velocity and
acceleration at `t = 0` and velocity and acceleration at `t = T` (no
end-position constraint). -/
theorem polynomial_boundary_conditions :
    ∀ xs vxs axs xe vxe axe T : ℚ, 0 < T →
    ((quinic_polynomial.init xs vxs axs xe vxe axe T).calc_point 0 = xs ∧
     (quinic_polynomial.init xs vxs axs xe vxe axe T).calc_first_derivative 0 = vxs ∧
     (quinic_polynomial.init xs vxs axs xe vxe axe T).calc_second_derivative 0 = axs ∧
     (quinic_polynomial.init xs vxs axs xe vxe axe T).calc_point T = xe ∧
     (quinic_polynomial.init xs vxs axs xe vxe axe T).calc_first_derivative T = vxe ∧
     (quinic_polynomial.init xs vxs axs xe vxe axe T).calc_second_derivative T = axe) ∧
    ((quartic_polynomial.init xs vxs axs vxe axe T).calc_point 0 = xs ∧
     (quartic_polynomial.init xs vxs axs vxe axe T).calc_first_derivative 0 = vxs ∧
     (quartic_polynomial.init xs vxs axs vxe axe T).calc_second_derivative 0 = axs ∧
     (quartic_polynomial.init xs vxs axs vxe axe T).calc_first_derivative T = vxe ∧
     (quartic_polynomial.init xs vxs axs vxe axe T).calc_second_derivative T = axe) := by
  intro xs vxs axs xe vxe axe Tv hT
  have hD3 : det3 (Tv^3) (Tv^4) (Tv^5) (3 * Tv^2) (4 * Tv^3) (5 * Tv^4)
      (6 * Tv) (12 * Tv^2) (20 * Tv^3) ≠ 0 := by
    rw [quintic_det]; positivity
  have hD2 : det2 (3 * Tv^2) (4 * Tv^3) (6 * Tv) (12 * Tv^2) ≠ 0 := by
    rw [quartic_det]; positivity
  obtain ⟨h1, h2, h3⟩ := solve3_spec (Tv^3) (Tv^4) (Tv^5) (3 * Tv^2) (4 * Tv^3) (5 * Tv^4)
      (6 * Tv) (12 * Tv^2) (20 * Tv^3)
      (xe - xs - vxs * Tv - axs / 2.0 * Tv^2)
      (vxe - vxs - 2 * (axs / 2.0) * Tv)
      (axe - 2 * (axs / 2.0)) hD3
  obtain ⟨g1, g2⟩ := solve2_spec (3 * Tv^2) (4 * Tv^3) (6 * Tv) (12 * Tv^2)
      (vxe - vxs - 2 * (axs / 2.0) * Tv)
      (axe - 2 * (axs / 2.0)) hD2
  refine ⟨⟨?_, ?_, ?_, ?_, ?_, ?_⟩, ?_, ?_, ?_, ?_, ?_⟩ <;>
    simp only [quinic_polynomial.calc_point, quinic_polynomial.calc_first_derivative,
      quinic_polynomial.calc_second_derivative, quinic_polynomial.init,
      quartic_polynomial.calc_point, quartic_polynomial.calc_first_derivative,
      quartic_polynomial.calc_second_derivative, quartic_polynomial.init]
  · linear_combination
  · linear_combination
  · linear_combination
  · linear_combination h1
  · linear_combination h2
  · linear_combination h3
  · linear_combination
  · linear_combination
  · linear_combination
  · linear_combination g1
  · linear_combination g2

/-- Witness for claim C3 at boundary conditions `(1,2,3,4,5,6)` and `T = 1`. -/
theorem polynomial_boundary_conditions_witness :
    (0:ℚ) < 1 ∧
    (((quinic_polynomial.init 1 2 3 4 5 6 1).calc_point 0 = 1 ∧
      (quinic_polynomial.init 1 2 3 4 5 6 1).calc_first_derivative 0 = 2 ∧
      (quinic_polynomial.init 1 2 3 4 5 6 1).calc_second_derivative 0 = 3 ∧
      (quinic_polynomial.init 1 2 3 4 5 6 1).calc_point 1 = 4 ∧
      (quinic_polynomial.init 1 2 3 4 5 6 1).calc_first_derivative 1 = 5 ∧
      (quinic_polynomial.init 1 2 3 4 5 6 1).calc_second_derivative 1 = 6) ∧
     ((quartic_polynomial.init 1 2 3 5 6 1).calc_point 0 = 1 ∧
      (quartic_polynomial.init 1 2 3 5 6 1).calc_first_derivative 0 = 2 ∧
      (quartic_polynomial.init 1 2 3 5 6 1).calc_second_derivative 0 = 3 ∧
      (quartic_polynomial.init 1 2 3 5 6 1).calc_first_derivative 1 = 5 ∧
      (quartic_polynomial.init 1 2 3 5 6 1).calc_second_derivative 1 = 6)) :=
  ⟨by norm_num, polynomial_boundary_conditions 1 2 3 4 5 6 1 (by norm_num)⟩

/-- Claim C8: the quintic's 3×3 system and the quartic's 2×2 system are
nonsingular for every `T ≠ 0` (so with `T > 0` the solve always succeeds and
the `LinAlgError` branch is unreachable), and singular exactly at `T = 0`. -/
theorem solver_singular_only_at_zero :
    ∀ xs vxs axs xe vxe axe T : ℚ,
      (T ≠ 0 → (quinic_polynomial.init? xs vxs axs xe vxe axe T).isSome ∧
               (quartic_polynomial.init? xs vxs axs vxe axe T).isSome) ∧
      (T = 0 → quinic_polynomial.init? xs vxs axs xe vxe axe T = none ∧
               quartic_polynomial.init? xs vxs axs vxe axe T = none) := by
  intro xs vxs axs xe vxe axe Tv
  constructor
  · intro hT
    have h3 : ¬ (det3 (Tv^3) (Tv^4) (Tv^5) (3 * Tv^2) (4 * Tv^3) (5 * Tv^4)
        (6 * Tv) (12 * Tv^2) (20 * Tv^3) = 0) := by
      rw [quintic_det]
      simp [pow_eq_zero_iff, hT]
    have h2 : ¬ (det2 (3 * Tv^2) (4 * Tv^3) (6 * Tv) (12 * Tv^2) = 0) := by
      rw [quartic_det]
      simp [pow_eq_zero_iff, hT]
    constructor
    · rw [quinic_polynomial.init?, if_neg h3]; rfl
    · rw [quartic_polynomial.init?, if_neg h2]; rfl
  · intro hT
    subst hT
    have h3 : det3 ((0:ℚ)^3) (0^4) (0^5) (3 * 0^2) (4 * 0^3) (5 * 0^4)
        (6 * 0) (12 * 0^2) (20 * 0^3) = 0 := by
      rw [quintic_det]; norm_num
    have h2 : det2 (3 * (0:ℚ)^2) (4 * 0^3) (6 * 0) (12 * 0^2) = 0 := by
      rw [quartic_det]; norm_num
    exact ⟨by rw [quinic_polynomial.init?, if_pos h3],
           by rw [quartic_polynomial.init?, if_pos h2]⟩

/-- Witness for claim C8: the solve succeeds at `T = 1` and both error
branches fire at `T = 0`. -/
theorem solver_singular_only_at_zero_witness :
    ((1:ℚ) ≠ 0 ∧
     (quinic_polynomial.init? 0 0 0 1 0 0 1).isSome ∧
     (quartic_polynomial.init? 0 0 0 0 0 1).isSome) ∧
    (quinic_polynomial.init? 0 0 0 1 0 0 0 = none ∧
     quartic_polynomial.init? 0 0 0 0 0 0 = none) :=
  ⟨⟨by norm_num, (solver_singular_only_at_zero 0 0 0 1 0 0 1).1 (by norm_num)⟩,
   (solver_singular_only_at_zero 0 0 0 1 0 0 0).2 rfl⟩

/-- Length of a `flatMap` whose blocks all have the same length. -/
lemma length_flatMap_const {α β : Type} (l : List α) (f : α → List β) (n : ℕ)
    (h : ∀ a ∈ l, (f a).length = n) : (l.flatMap f).length = l.length * n := by
  induction l with
  | nil => simp
  | cons a tl ih =>
    rw [List.flatMap_cons, List.length_append, h a (List.mem_cons_self a tl),
      ih (fun b hb => h b (List.mem_cons_of_mem a hb)), List.length_cons]
    ring

/-- Membership in an `arange` grid gives an index representation. -/
lemma mem_arange {q s e st : ℚ} (h : q ∈ arange s e st) :
    ∃ i : ℕ, i < (⌈(e - s) / st⌉).toNat ∧ q = s + (i : ℚ) * st := by
  unfold arange at h
  simp only [List.mem_map, List.mem_range] at h
  obtain ⟨i, hi, hq⟩ := h
  exact ⟨i, hi, hq.symm⟩

/-- The candidate list length is the product of the three grid lengths. -/
lemma calc_frenet_paths_length_formula (c_speed c_d : ℚ) :
    (calc_frenet_paths c_speed c_d).length =
      (arange (-maxd) maxd dd).length *
        ((arange dt T dt).length *
          (arange (target_speed - dv * nv) (target_speed + dv * nv) dv).length) := by
  unfold calc_frenet_paths
  refine length_flatMap_const _ _ _ (fun di _ => ?_)
  refine length_flatMap_const _ _ _ (fun Ti _ => ?_)
  exact List.length_map _ _

/-- Claim C4: `calc_frenet_paths` yields exactly one path per
(lateral offset, duration, target speed) triple: its length is the product
of the three half-open grid cardinalities, and the lateral endpoint `maxd`
itself is never one of the tried lateral targets. -/
theorem candidate_count_is_grid_product :
    ∀ c_speed c_d : ℚ,
      (calc_frenet_paths c_speed c_d).length =
        (arange (-maxd) maxd dd).length *
          ((arange dt T dt).length *
            (arange (target_speed - dv * nv) (target_speed + dv * nv) dv).length) ∧
      (arange (-maxd) maxd dd).contains maxd = false := by
  intro cs cd
  constructor
  · exact calc_frenet_paths_length_formula cs cd
  · have hmem : maxd ∉ arange (-maxd) maxd dd := by
      intro hm
      obtain ⟨i, hi, hEq⟩ := mem_arange hm
      have hn : (⌈(maxd - -maxd) / dd⌉).toNat = 10 := by
        rw [maxd, dd]; norm_num; rfl
      rw [hn] at hi
      have h10 : (i : ℚ) = 10 := by
        rw [maxd, dd] at hEq
        norm_num at hEq
        linarith
      have : i = 10 := by exact_mod_cast h10
      omega
    simpa using hmem

/-- The three grids of the source's constants have 10, 9 and 4 entries. -/
lemma arange_lengths :
    (arange (-maxd) maxd dd).length = 10 ∧ (arange dt T dt).length = 9 ∧
    (arange (target_speed - dv * nv) (target_speed + dv * nv) dv).length = 4 := by
  refine ⟨?_, ?_, ?_⟩ <;> (unfold arange; rw [List.length_map, List.length_range])
  · rw [maxd, dd]; norm_num; rfl
  · rw [dt, T]; norm_num; rfl
  · rw [target_speed, dv, nv]; norm_num; rfl

/-- With the source's constants the generator yields 10·9·4 = 360 candidates. -/
lemma calc_frenet_paths_length (c_speed c_d : ℚ) :
    (calc_frenet_paths c_speed c_d).length = 360 := by
  rw [calc_frenet_paths_length_formula]
  obtain ⟨h1, h2, h3⟩ := arange_lengths
  rw [h1, h2, h3]

/-- Every duration in the duration grid is at least `1`. -/
lemma one_le_of_mem_duration_grid {Ti : ℚ} (h : Ti ∈ arange dt T dt) : 1 ≤ Ti := by
  obtain ⟨i, _, hq⟩ := mem_arange h
  rw [dt] at hq
  rw [hq]
  norm_num

/-- A duration of at least `1` yields at least two samples on the `0.1` grid. -/
lemma arange_sample_length {Ti : ℚ} (h : 1 ≤ Ti) : 2 ≤ (arange 0.0 Ti 0.1).length := by
  unfold arange
  rw [List.length_map, List.length_range]
  have h1 : (10:ℚ) ≤ (Ti - 0.0) / 0.1 := by
    rw [le_div_iff₀ (by norm_num : (0:ℚ) < 0.1)]
    norm_num
    linarith
  have h2 : (10:ℤ) ≤ ⌈(Ti - 0.0) / 0.1⌉ := by
    calc (10:ℤ) = ⌈(10:ℚ)⌉ := by norm_num
      _ ≤ ⌈(Ti - 0.0) / 0.1⌉ := Int.ceil_le_ceil h1
  omega

/-- Structure of every generated candidate: its time grid is an `arange`
over some grid duration, the six kinematic arrays all have the time grid's
length, and the five derived arrays are still empty. -/
lemma mem_calc_frenet_paths_fields {c_speed c_d : ℚ} {fp : Frenet_path}
    (h : fp ∈ calc_frenet_paths c_speed c_d) :
    ∃ Ti ∈ arange dt T dt,
      fp.t = arange 0.0 Ti 0.1 ∧
      fp.d.length = fp.t.length ∧ fp.d_d.length = fp.t.length ∧
      fp.d_dd.length = fp.t.length ∧
      fp.s.length = fp.t.length ∧ fp.s_d.length = fp.t.length ∧
      fp.s_dd.length = fp.t.length ∧
      fp.x = [] ∧ fp.y = [] ∧ fp.yaw = [] ∧ fp.ds = [] ∧ fp.c = [] := by
  unfold calc_frenet_paths at h
  simp only [List.mem_flatMap, List.mem_map] at h
  obtain ⟨di, hdi, Ti, hTi, tv, htv, hfp⟩ := h
  subst hfp
  exact ⟨Ti, hTi, rfl, by simp, by simp, by simp, by simp, by simp, by simp,
    rfl, rfl, rfl, rfl, rfl⟩

/-- Every generated candidate has empty derived arrays and at least two
longitudinal samples. -/
lemma generated_path_ok {c_speed c_d : ℚ} {fp : Frenet_path}
    (h : fp ∈ calc_frenet_paths c_speed c_d) :
    fp.yaw = [] ∧ fp.ds = [] ∧ fp.c = [] ∧ 2 ≤ fp.s.length := by
  obtain ⟨Ti, hTi, ht, _, _, _, hs, _, _, _, _, hyaw, hds, hc⟩ :=
    mem_calc_frenet_paths_fields h
  refine ⟨hyaw, hds, hc, ?_⟩
  rw [hs, ht]
  exact arange_sample_length (one_le_of_mem_duration_grid hTi)

/-- `getD` on a mapped range evaluates the function. -/
lemma getD_range_map (h : ℕ → ℚ) (n i : ℕ) (hi : i < n) :
    ((List.range n).map h).getD i 0 = h i := by
  rw [List.getD_eq_getElem _ _ (by simpa using hi)]
  simp

/-- `getLast?` on a nonempty mapped range evaluates the function at the top
index. -/
lemma getLast?_range_map (h : ℕ → ℚ) (n : ℕ) (hn : 0 < n) :
    ((List.range n).map h).getLast? = some (h (n - 1)) := by
  rw [List.getLast?_eq_getElem?]
  have hl : ((List.range n).map h).length = n := by simp
  rw [hl]
  rw [List.getElem?_eq_getElem (by simp; omega)]
  simp [List.getElem_map, List.getElem_range]

/-- On a path with empty `yaw`/`ds` and fewer than two samples the converter
reads the last element of an empty list and raises `IndexError`. -/
lemma calc_global_path_short (f : ℚ → ℚ → ℚ) (g : ℚ → ℚ) (fp : Frenet_path)
    (hyaw : fp.yaw = []) (hds : fp.ds = []) (hlen : fp.s.length < 2) :
    calc_global_path f g fp = Except.error PyError.indexError := by
  have h0 : fp.s.length - 1 = 0 := by omega
  simp [calc_global_path, hyaw, hds, h0]

/-- On a path with empty `yaw`/`ds` and at least two samples the converter
reaches the curvature loop, whose outcome is decided by the zero-divisor
guard: `ZeroDivisionError` if some step length is zero, otherwise the
converted path described by `yaw_steps`, `ds_steps` and `curvature_of`. -/
lemma calc_global_path_reduce (f : ℚ → ℚ → ℚ) (g : ℚ → ℚ) (fp : Frenet_path)
    (hyaw : fp.yaw = []) (hds : fp.ds = []) (h2 : 2 ≤ fp.s.length) :
    ∃ ylast dlast,
      (yaw_steps f fp).getLast? = some ylast ∧
      (ds_steps g fp).getLast? = some dlast ∧
      calc_global_path f g fp =
        (if (List.range ((yaw_steps f fp ++ [ylast]).length - 1)).any
            (fun i => decide ((ds_steps g fp ++ [dlast]).getD i 0 = 0)) then
          Except.error PyError.zeroDivisionError
        else
          Except.ok { fp with
            x := fp.s, y := fp.d,
            yaw := yaw_steps f fp ++ [ylast],
            ds := ds_steps g fp ++ [dlast],
            c := fp.c ++ curvature_of (yaw_steps f fp ++ [ylast])
              (ds_steps g fp ++ [dlast]) }) := by
  have hpos : 0 < fp.s.length - 1 := by omega
  obtain ⟨ylast, hy⟩ : ∃ yl, (yaw_steps f fp).getLast? = some yl :=
    ⟨_, getLast?_range_map _ _ hpos⟩
  obtain ⟨dlast, hd⟩ : ∃ dl, (ds_steps g fp).getLast? = some dl :=
    ⟨_, getLast?_range_map _ _ hpos⟩
  refine ⟨ylast, dlast, hy, hd, ?_⟩
  unfold calc_global_path
  rw [hyaw, hds]
  simp only [List.nil_append]
  rw [show ((List.range (fp.s.length - 1)).map (fun i =>
        f (fp.d.getD (i + 1) 0 - fp.d.getD i 0) (fp.s.getD (i + 1) 0 - fp.s.getD i 0))) =
      yaw_steps f fp from rfl]
  rw [show ((List.range (fp.s.length - 1)).map (fun i =>
        g ((fp.s.getD (i + 1) 0 - fp.s.getD i 0)^2 + (fp.d.getD (i + 1) 0 - fp.d.getD i 0)^2))) =
      ds_steps g fp from rfl]
  rw [hy, hd]
  rfl

/-- Inverting a successful conversion: the input had at least two samples
and the output is exactly the record built from `yaw_steps`, `ds_steps` and
`curvature_of`. -/
lemma calc_global_path_ok_inv (f : ℚ → ℚ → ℚ) (g : ℚ → ℚ) (fp gp : Frenet_path)
    (hyaw : fp.yaw = []) (hds : fp.ds = [])
    (hok : calc_global_path f g fp = Except.ok gp) :
    2 ≤ fp.s.length ∧
    ∃ ylast dlast,
      (yaw_steps f fp).getLast? = some ylast ∧
      (ds_steps g fp).getLast? = some dlast ∧
      gp = { fp with
        x := fp.s, y := fp.d,
        yaw := yaw_steps f fp ++ [ylast],
        ds := ds_steps g fp ++ [dlast],
        c := fp.c ++ curvature_of (yaw_steps f fp ++ [ylast]) (ds_steps g fp ++ [dlast]) } := by
  by_cases h2 : 2 ≤ fp.s.length
  · obtain ⟨yl, dl, hy, hd, hred⟩ := calc_global_path_reduce f g fp hyaw hds h2
    rw [hred] at hok
    by_cases hguard : ((List.range ((yaw_steps f fp ++ [yl]).length - 1)).any
        (fun i => decide ((ds_steps g fp ++ [dl]).getD i 0 = 0))) = true
    · rw [if_pos hguard] at hok
      exact absurd hok (by simp)
    · rw [if_neg hguard] at hok
      exact ⟨h2, yl, dl, hy, hd, (Except.ok.inj hok).symm⟩
  · rw [calc_global_path_short f g fp hyaw hds (by omega)] at hok
    exact absurd hok (by simp)

/-- If the `sqrt` interpretation never returns zero, conversion of a path
with empty `yaw`/`ds` and at least two samples succeeds. -/
lemma calc_global_path_ok_of_nonzero (f : ℚ → ℚ → ℚ) (g : ℚ → ℚ) (fp : Frenet_path)
    (hyaw : fp.yaw = []) (hds : fp.ds = []) (h2 : 2 ≤ fp.s.length)
    (hg : ∀ q, g q ≠ 0) :
    ∃ gp, calc_global_path f g fp = Except.ok gp := by
  obtain ⟨yl, dl, hy, hd, hred⟩ := calc_global_path_reduce f g fp hyaw hds h2
  have hyawlen : (yaw_steps f fp).length = fp.s.length - 1 := by simp [yaw_steps]
  have hdslen : (ds_steps g fp).length = fp.s.length - 1 := by simp [ds_steps]
  have hguard : ((List.range ((yaw_steps f fp ++ [yl]).length - 1)).any
      (fun i => decide ((ds_steps g fp ++ [dl]).getD i 0 = 0))) = false := by
    rw [Bool.eq_false_iff]
    intro hany
    rw [List.any_eq_true] at hany
    obtain ⟨i, hi, hzero⟩ := hany
    rw [List.mem_range] at hi
    simp only [decide_eq_true_eq] at hzero
    have hi2 : i < fp.s.length - 1 := by
      rw [List.length_append, hyawlen] at hi
      simp only [List.length_cons, List.length_nil] at hi
      omega
    rw [List.getD_append _ _ _ i (by omega)] at hzero
    rw [show ds_steps g fp = (List.range (fp.s.length - 1)).map (fun i =>
      g ((fp.s.getD (i + 1) 0 - fp.s.getD i 0)^2 + (fp.d.getD (i + 1) 0 - fp.d.getD i 0)^2))
      from rfl] at hzero
    rw [getD_range_map _ _ _ (by omega)] at hzero
    exact hg _ hzero
  rw [hred, if_neg (by rw [hguard]; simp)]
  exact ⟨_, rfl⟩

/-- An `Except`-monad `mapM` over a list on which the function always
succeeds succeeds. -/
lemma mapM_except_ok {α β ε : Type} (f : α → Except ε β) (l : List α)
    (h : ∀ x ∈ l, ∃ y, f x = Except.ok y) : ∃ l2, l.mapM f = Except.ok l2 := by
  induction l with
  | nil => exact ⟨[], rfl⟩
  | cons a tl ih =>
    obtain ⟨b, hb⟩ := h a (List.mem_cons_self a tl)
    obtain ⟨l2, hl2⟩ := ih (fun x hx => h x (List.mem_cons_of_mem a hx))
    refine ⟨b :: l2, ?_⟩
    rw [List.mapM_cons, hb, hl2]
    rfl

/-- When the `sqrt` interpretation never returns zero the whole pipeline
completes: the converter succeeds on every generated candidate, the filtered
list is handed to the plot loop, and the function itself returns `None`. -/
lemma frenet_optimal_planning_ok (f : ℚ → ℚ → ℚ) (g : ℚ → ℚ) (c_speed c_d : ℚ)
    (hg : ∀ q, g q ≠ 0) :
    ∃ fplist2, calc_global_paths f g (calc_frenet_paths c_speed c_d) = Except.ok fplist2 ∧
      frenet_optimal_planning f g c_speed c_d =
        Except.ok { plotted := check_paths fplist2, ret := none } := by
  have hall : ∀ fp ∈ calc_frenet_paths c_speed c_d,
      ∃ gp, calc_global_path f g fp = Except.ok gp := by
    intro fp h
    obtain ⟨hyaw, hds, _, h2⟩ := generated_path_ok h
    exact calc_global_path_ok_of_nonzero f g fp hyaw hds h2 hg
  obtain ⟨l2, hl2⟩ := mapM_except_ok (calc_global_path f g) _ hall
  refine ⟨l2, hl2, ?_⟩
  unfold frenet_optimal_planning
  rw [show calc_global_paths f g (calc_frenet_paths c_speed c_d) = Except.ok l2 from hl2]

/-- Claim C10: the frame converter is only defined on paths with at least two
samples — on fewer, the `yaw[-1]`/`ds[-1]` replication reads the last element
of an empty list and raises `IndexError`; and every candidate produced by
`calc_frenet_paths` (all grid durations are ≥ 1 > 0.1) has at least two
samples, so on generated candidates this `IndexError` branch is unreachable
(the curvature `ZeroDivisionError` is a different, unguarded branch). -/
theorem converter_failure_unreachable_on_candidates :
    (∀ (f : ℚ → ℚ → ℚ) (g : ℚ → ℚ) (fp : Frenet_path),
      fp.yaw = [] → fp.ds = [] → fp.s.length < 2 →
      calc_global_path f g fp = Except.error PyError.indexError) ∧
    (∀ (f : ℚ → ℚ → ℚ) (g : ℚ → ℚ) (c_speed c_d : ℚ) (fp : Frenet_path),
      fp ∈ calc_frenet_paths c_speed c_d →
      2 ≤ fp.s.length ∧
      calc_global_path f g fp ≠ Except.error PyError.indexError) := by
  constructor
  · exact calc_global_path_short
  · intro f g cs cd fp h
    obtain ⟨hyaw, hds, _, h2⟩ := generated_path_ok h
    refine ⟨h2, ?_⟩
    obtain ⟨yl, dl, _, _, hred⟩ := calc_global_path_reduce f g fp hyaw hds h2
    rw [hred]
    by_cases hguard : ((List.range ((yaw_steps f fp ++ [yl]).length - 1)).any
        (fun i => decide ((ds_steps g fp ++ [dl]).getD i 0 = 0))) = true
    · rw [if_pos hguard]
      simp
    · rw [if_neg hguard]
      simp

/-- Witness for claim C10: the empty default path makes the converter raise
`IndexError`, and the first generated candidate at input `(0, 0)` has at
least two samples and never reaches the `IndexError` branch. -/
theorem converter_failure_unreachable_on_candidates_witness :
    ((default : Frenet_path).yaw = [] ∧ (default : Frenet_path).ds = [] ∧
     (default : Frenet_path).s.length < 2 ∧
     calc_global_path (fun _ _ => 0) (fun _ => 0) default =
       Except.error PyError.indexError) ∧
    (2 ≤ ((calc_frenet_paths 0 0).getD 0 default).s.length ∧
     calc_global_path (fun _ _ => 0) (fun _ => 0)
        ((calc_frenet_paths 0 0).getD 0 default) ≠
       Except.error PyError.indexError) := by
  have hm : (calc_frenet_paths 0 0).getD 0 default ∈ calc_frenet_paths 0 0 := by
    have hlen : 0 < (calc_frenet_paths 0 0).length := by
      rw [calc_frenet_paths_length]
      omega
    rw [List.getD_eq_getElem _ _ hlen]
    exact List.getElem_mem hlen
  exact ⟨⟨rfl, rfl, by decide,
      converter_failure_unreachable_on_candidates.1 _ _ _ rfl rfl (by decide)⟩,
    converter_failure_unreachable_on_candidates.2 (fun _ _ => 0) (fun _ => 0) 0 0 _ hm⟩

/-- Claim C6: every generated candidate has its seven arrays `t`, `d`, `d'`,
`d''`, `s`, `s'`, `s''` of equal length, and after a successful conversion
`x`, `y`, `yaw`, `ds` also have that length while `c` has length
`len(t) − 1`. -/
theorem candidate_array_lengths :
    ∀ (c_speed c_d : ℚ) (fp : Frenet_path), fp ∈ calc_frenet_paths c_speed c_d →
      (fp.d.length = fp.t.length ∧ fp.d_d.length = fp.t.length ∧
       fp.d_dd.length = fp.t.length ∧ fp.s.length = fp.t.length ∧
       fp.s_d.length = fp.t.length ∧ fp.s_dd.length = fp.t.length) ∧
      (∀ (f : ℚ → ℚ → ℚ) (g : ℚ → ℚ) (gp : Frenet_path),
        calc_global_path f g fp = Except.ok gp →
        gp.x.length = fp.t.length ∧ gp.y.length = fp.t.length ∧
        gp.yaw.length = fp.t.length ∧ gp.ds.length = fp.t.length ∧
        gp.c.length = fp.t.length - 1) := by
  intro cs cd fp h
  obtain ⟨Ti, hTi, ht, hd, hdd, hddd, hs, hsd, hsdd, hx, hy, hyaw, hds, hc⟩ :=
    mem_calc_frenet_paths_fields h
  refine ⟨⟨hd, hdd, hddd, hs, hsd, hsdd⟩, ?_⟩
  intro f g gp hsome
  have h2 : 2 ≤ fp.s.length := by
    rw [hs, ht]
    exact arange_sample_length (one_le_of_mem_duration_grid hTi)
  obtain ⟨_, yl, dl, hyl, hdl, hgp⟩ := calc_global_path_ok_inv f g fp gp hyaw hds hsome
  subst hgp
  have hyawlen : (yaw_steps f fp).length = fp.s.length - 1 := by simp [yaw_steps]
  have hdslen : (ds_steps g fp).length = fp.s.length - 1 := by simp [ds_steps]
  refine ⟨hs, hd, ?_, ?_, ?_⟩
  · show (yaw_steps f fp ++ [yl]).length = fp.t.length
    rw [List.length_append, hyawlen]
    simp only [List.length_cons, List.length_nil]
    omega
  · show (ds_steps g fp ++ [dl]).length = fp.t.length
    rw [List.length_append, hdslen]
    simp only [List.length_cons, List.length_nil]
    omega
  · show (fp.c ++ curvature_of (yaw_steps f fp ++ [yl]) (ds_steps g fp ++ [dl])).length =
      fp.t.length - 1
    rw [hc, List.nil_append, curvature_of, List.length_map, List.length_range,
      List.length_append, hyawlen]
    simp only [List.length_cons, List.length_nil]
    omega

/-- Witness for claim C6 at the first generated candidate of input `(0, 0)`,
converted with a concrete interpretation of `atan2` and a nowhere-zero
interpretation of `sqrt`. -/
theorem candidate_array_lengths_witness :
    (((calc_frenet_paths 0 0).getD 0 default).d.length =
      ((calc_frenet_paths 0 0).getD 0 default).t.length) ∧
    (((calc_global_path (fun a b => a + b) (fun q => q^2 + 1)
        ((calc_frenet_paths 0 0).getD 0 default)).toOption.getD default).x.length =
      ((calc_frenet_paths 0 0).getD 0 default).t.length) ∧
    (((calc_global_path (fun a b => a + b) (fun q => q^2 + 1)
        ((calc_frenet_paths 0 0).getD 0 default)).toOption.getD default).c.length =
      ((calc_frenet_paths 0 0).getD 0 default).t.length - 1) := by
  have hm : (calc_frenet_paths 0 0).getD 0 default ∈ calc_frenet_paths 0 0 := by
    have hlen : 0 < (calc_frenet_paths 0 0).length := by
      rw [calc_frenet_paths_length]
      omega
    rw [List.getD_eq_getElem _ _ hlen]
    exact List.getElem_mem hlen
  obtain ⟨hyaw, hds, _, h2⟩ := generated_path_ok hm
  obtain ⟨gp, hgp⟩ := calc_global_path_ok_of_nonzero (fun a b => a + b) (fun q => q^2 + 1)
    ((calc_frenet_paths 0 0).getD 0 default) hyaw hds h2 (fun q => by positivity)
  have hc6 := candidate_array_lengths 0 0 _ hm
  have hconv := hc6.2 (fun a b => a + b) (fun q => q^2 + 1) gp hgp
  have hgetD : (calc_global_path (fun a b => a + b) (fun q => q^2 + 1)
      ((calc_frenet_paths 0 0).getD 0 default)).toOption.getD default = gp := by
    rw [hgp]
    rfl
  rw [hgetD]
  exact ⟨hc6.1.1, hconv.1, hconv.2.2.2.2⟩

/-- Claim C2 (amended): `frenet_optimal_planning` is the pipeline
Filter(Convert(Generate(c_speed, c_d))): a conversion exception propagates
out of the call unchanged, and on success exactly the filtered list — which
may be empty, a valid non-error outcome whose loop plots nothing — is handed
to the plotting loop while the function returns Python's `None` rather than
the computed sequence; whenever the `sqrt` interpretation never returns
zero, the conversion does always succeed. -/
theorem frenet_optimal_planning_pipeline :
    ∀ (f : ℚ → ℚ → ℚ) (g : ℚ → ℚ) (c_speed c_d : ℚ),
      frenet_optimal_planning f g c_speed c_d =
        (calc_global_paths f g (calc_frenet_paths c_speed c_d)).map
          (fun fplist2 => { plotted := check_paths fplist2, ret := none }) ∧
      ((∀ q, g q ≠ 0) →
        ∃ fplist2,
          calc_global_paths f g (calc_frenet_paths c_speed c_d) = Except.ok fplist2 ∧
          frenet_optimal_planning f g c_speed c_d =
            Except.ok { plotted := check_paths fplist2, ret := none }) := by
  intro f g cs cd
  constructor
  · unfold frenet_optimal_planning
    cases calc_global_paths f g (calc_frenet_paths cs cd) <;> rfl
  · exact frenet_optimal_planning_ok f g cs cd

/-- Witness for claim C2 at the `main()` scenario input with a nowhere-zero
`sqrt` interpretation: the pipeline equation holds and the call completes. -/
theorem frenet_optimal_planning_pipeline_witness :
    (frenet_optimal_planning (fun _ _ => 0) (fun _ => 1) (10.0/3.6) 1.0 =
      (calc_global_paths (fun _ _ => 0) (fun _ => 1)
        (calc_frenet_paths (10.0/3.6) 1.0)).map
          (fun fplist2 => { plotted := check_paths fplist2, ret := none })) ∧
    (frenet_optimal_planning (fun _ _ => 0) (fun _ => 1) (10.0/3.6) 1.0).isOk = true := by
  obtain ⟨heq, hsucc⟩ :=
    frenet_optimal_planning_pipeline (fun _ _ => 0) (fun _ => 1) (10.0/3.6) 1.0
  refine ⟨heq, ?_⟩
  obtain ⟨l2, _, h2⟩ := hsucc (fun q => one_ne_zero)
  rw [h2]
  rfl

/-- Claim C2 counterexample: at the `main()` scenario input (with a
nowhere-zero `sqrt` interpretation, so the pipeline completes) the planner's
return value is `None` and differs from the surviving feasible sequence the
claim says it returns. -/
theorem planner_returns_none_counterexample :
    (frenet_optimal_planning (fun _ _ => 0) (fun _ => 1) (10.0/3.6) 1.0).map
        PlanReturn.ret ≠
      (frenet_optimal_planning (fun _ _ => 0) (fun _ => 1) (10.0/3.6) 1.0).map
        (fun r => some r.plotted) := by
  obtain ⟨l2, _, heq⟩ := frenet_optimal_planning_ok (fun _ _ => 0) (fun _ => 1)
    (10.0/3.6) 1.0 (fun q => one_ne_zero)
  rw [heq]
  simp [Except.map]

/-- Claim C5: on every successfully converted path the converter sets
`x := s` and `y := d`, computes `yaw[i] = atan2(y[i+1]-y[i], x[i+1]-x[i])`
and `ds[i] = sqrt((x[i+1]-x[i])^2 + (y[i+1]-y[i])^2)` for each consecutive
pair, replicates the last computed `yaw` and `ds` values as the final
entries so both arrays are full-length, and sets
`c[i] = (yaw[i+1] - yaw[i]) / ds[i]` for every `i` over the yaw sequence
(`c` being one entry shorter). -/
theorem frame_converter_pointwise :
    ∀ (f : ℚ → ℚ → ℚ) (g : ℚ → ℚ) (fp gp : Frenet_path),
      fp.yaw = [] → fp.ds = [] → fp.c = [] →
      calc_global_path f g fp = Except.ok gp →
      gp.x = fp.s ∧ gp.y = fp.d ∧
      gp.yaw.length = fp.s.length ∧ gp.ds.length = fp.s.length ∧
      (∀ i, i + 1 < fp.s.length →
        gp.yaw.getD i 0 = f (fp.d.getD (i + 1) 0 - fp.d.getD i 0)
            (fp.s.getD (i + 1) 0 - fp.s.getD i 0) ∧
        gp.ds.getD i 0 = g ((fp.s.getD (i + 1) 0 - fp.s.getD i 0)^2 +
            (fp.d.getD (i + 1) 0 - fp.d.getD i 0)^2)) ∧
      gp.yaw.getD (fp.s.length - 1) 0 = gp.yaw.getD (fp.s.length - 2) 0 ∧
      gp.ds.getD (fp.s.length - 1) 0 = gp.ds.getD (fp.s.length - 2) 0 ∧
      gp.c.length = gp.yaw.length - 1 ∧
      (∀ i, i + 1 < gp.yaw.length →
        gp.c.getD i 0 = (gp.yaw.getD (i + 1) 0 - gp.yaw.getD i 0) / gp.ds.getD i 0) := by
  intro f g fp gp hyaw hds hc hsome
  obtain ⟨h2, yl, dl, hyl, hdl, hgp⟩ := calc_global_path_ok_inv f g fp gp hyaw hds hsome
  subst hgp
  have hyawlen : (yaw_steps f fp).length = fp.s.length - 1 := by simp [yaw_steps]
  have hdslen : (ds_steps g fp).length = fp.s.length - 1 := by simp [ds_steps]
  have hylv : yl = f (fp.d.getD (fp.s.length - 2 + 1) 0 - fp.d.getD (fp.s.length - 2) 0)
      (fp.s.getD (fp.s.length - 2 + 1) 0 - fp.s.getD (fp.s.length - 2) 0) := by
    have := getLast?_range_map (fun i =>
      f (fp.d.getD (i + 1) 0 - fp.d.getD i 0) (fp.s.getD (i + 1) 0 - fp.s.getD i 0))
      (fp.s.length - 1) (by omega)
    rw [show yaw_steps f fp = (List.range (fp.s.length - 1)).map (fun i =>
      f (fp.d.getD (i + 1) 0 - fp.d.getD i 0) (fp.s.getD (i + 1) 0 - fp.s.getD i 0)) from rfl]
      at hyl
    rw [this] at hyl
    have h12 : fp.s.length - 1 - 1 = fp.s.length - 2 := by omega
    rw [h12] at hyl
    exact (Option.some.inj hyl).symm
  have hdlv : dl = g ((fp.s.getD (fp.s.length - 2 + 1) 0 - fp.s.getD (fp.s.length - 2) 0)^2 +
      (fp.d.getD (fp.s.length - 2 + 1) 0 - fp.d.getD (fp.s.length - 2) 0)^2) := by
    have := getLast?_range_map (fun i =>
      g ((fp.s.getD (i + 1) 0 - fp.s.getD i 0)^2 + (fp.d.getD (i + 1) 0 - fp.d.getD i 0)^2))
      (fp.s.length - 1) (by omega)
    rw [show ds_steps g fp = (List.range (fp.s.length - 1)).map (fun i =>
      g ((fp.s.getD (i + 1) 0 - fp.s.getD i 0)^2 + (fp.d.getD (i + 1) 0 - fp.d.getD i 0)^2))
      from rfl] at hdl
    rw [this] at hdl
    have h12 : fp.s.length - 1 - 1 = fp.s.length - 2 := by omega
    rw [h12] at hdl
    exact (Option.some.inj hdl).symm
  refine ⟨rfl, rfl, ?_, ?_, ?_, ?_, ?_, ?_, ?_⟩
  · show (yaw_steps f fp ++ [yl]).length = fp.s.length
    rw [List.length_append, hyawlen]
    simp only [List.length_cons, List.length_nil]
    omega
  · show (ds_steps g fp ++ [dl]).length = fp.s.length
    rw [List.length_append, hdslen]
    simp only [List.length_cons, List.length_nil]
    omega
  · intro i hi
    constructor
    · show (yaw_steps f fp ++ [yl]).getD i 0 = _
      rw [List.getD_append _ _ _ i (by omega)]
      exact getD_range_map _ _ _ (by omega)
    · show (ds_steps g fp ++ [dl]).getD i 0 = _
      rw [List.getD_append _ _ _ i (by omega)]
      exact getD_range_map _ _ _ (by omega)
  · show (yaw_steps f fp ++ [yl]).getD (fp.s.length - 1) 0 =
      (yaw_steps f fp ++ [yl]).getD (fp.s.length - 2) 0
    rw [List.getD_append_right _ _ _ (fp.s.length - 1) (by omega)]
    rw [List.getD_append _ _ _ (fp.s.length - 2) (by omega)]
    rw [hyawlen]
    rw [show fp.s.length - 1 - (fp.s.length - 1) = 0 from by omega]
    simp only [List.getD_cons_zero]
    simp only [yaw_steps]
    rw [getD_range_map _ _ _ (by omega)]
    exact hylv
  · show (ds_steps g fp ++ [dl]).getD (fp.s.length - 1) 0 =
      (ds_steps g fp ++ [dl]).getD (fp.s.length - 2) 0
    rw [List.getD_append_right _ _ _ (fp.s.length - 1) (by omega)]
    rw [List.getD_append _ _ _ (fp.s.length - 2) (by omega)]
    rw [hdslen]
    rw [show fp.s.length - 1 - (fp.s.length - 1) = 0 from by omega]
    simp only [List.getD_cons_zero]
    simp only [ds_steps]
    rw [getD_range_map _ _ _ (by omega)]
    exact hdlv
  · show (fp.c ++ curvature_of (yaw_steps f fp ++ [yl]) (ds_steps g fp ++ [dl])).length =
      (yaw_steps f fp ++ [yl]).length - 1
    rw [hc, List.nil_append, curvature_of, List.length_map, List.length_range]
  · intro i hi
    show (fp.c ++ curvature_of (yaw_steps f fp ++ [yl]) (ds_steps g fp ++ [dl])).getD i 0 = _
    rw [hc, List.nil_append, curvature_of]
    exact getD_range_map _ _ _ (by
      simp only [List.length_append, hyawlen, List.length_cons, List.length_nil] at hi ⊢
      omega)

/-- Witness for claim C5 at the first generated candidate of input `(0, 0)`,
converted with a concrete interpretation of `atan2` and a nowhere-zero
interpretation of `sqrt`. -/
theorem frame_converter_pointwise_witness :
    ((calc_frenet_paths 0 0).getD 0 default).yaw = [] ∧
    ((calc_frenet_paths 0 0).getD 0 default).ds = [] ∧
    ((calc_frenet_paths 0 0).getD 0 default).c = [] ∧
    ((calc_global_path (fun a b => a + b) (fun q => q^2 + 1)
        ((calc_frenet_paths 0 0).getD 0 default)).toOption.getD default).x =
      ((calc_frenet_paths 0 0).getD 0 default).s ∧
    ((calc_global_path (fun a b => a + b) (fun q => q^2 + 1)
        ((calc_frenet_paths 0 0).getD 0 default)).toOption.getD default).y =
      ((calc_frenet_paths 0 0).getD 0 default).d ∧
    ((calc_global_path (fun a b => a + b) (fun q => q^2 + 1)
        ((calc_frenet_paths 0 0).getD 0 default)).toOption.getD default).yaw.length =
      ((calc_frenet_paths 0 0).getD 0 default).s.length := by
  have hm : (calc_frenet_paths 0 0).getD 0 default ∈ calc_frenet_paths 0 0 := by
    have hlen : 0 < (calc_frenet_paths 0 0).length := by
      rw [calc_frenet_paths_length]
      omega
    rw [List.getD_eq_getElem _ _ hlen]
    exact List.getElem_mem hlen
  obtain ⟨hyaw, hds, hc, h2⟩ := generated_path_ok hm
  obtain ⟨gp, hgp⟩ := calc_global_path_ok_of_nonzero (fun a b => a + b) (fun q => q^2 + 1)
    ((calc_frenet_paths 0 0).getD 0 default) hyaw hds h2 (fun q => by positivity)
  have h5 := frame_converter_pointwise (fun a b => a + b) (fun q => q^2 + 1) _ gp
    hyaw hds hc hgp
  have hgetD : (calc_global_path (fun a b => a + b) (fun q => q^2 + 1)
      ((calc_frenet_paths 0 0).getD 0 default)).toOption.getD default = gp := by
    rw [hgp]
    rfl
  rw [hgetD]
  exact ⟨hyaw, hds, hc, h5.1, h5.2.1, h5.2.2.1⟩
